import Mathlib

/-!
# Verification of the ClickUp MCP server's time-tracking core

This development gives a shallow embedding, in Lean, of the time-tracking
aggregation and name-resolution logic of the `clickup-mcp-server`
repository, and proves (or refutes) the behavioural properties stated in
the repository's specification.

The embedded code lives in:
* `src/tools/timetracking.ts` — date-range resolver, duration formatter,
  report aggregation, timer tool handlers;
* `src/resources/timetracking.ts` and `src/tools/utils.ts` — resources
  and the task-name resolver `findTaskIDByName`;
* `src/services/clickup/timetracking.ts` (two generations of the service)
  — the thin service layer, in particular `getCurrentTimer`;
* the sibling tools module (`handleGetTimeTrackingSummary`,
  `handleStartTimer`, `handleGetCurrentTimer`, `getDateRangeForPeriod`,
  its own `formatDuration` and `findTaskIDByName`).

Conventions of the embedding:
* durations and timestamps are integers (milliseconds); all durations
  handled by the aggregation code are non-negative, so `Nat` is used for
  durations and `Int` for epoch timestamps;
* JavaScript floating-point division and `Math.round` are modelled
  exactly on the values the code can reach: a `JSNum` is either a finite
  rational or one of `NaN`, `Infinity`, `-Infinity`;
* JavaScript objects used as dictionaries (`userData.tasks`,
  `summaryItems`) are modelled as association lists in iteration order;
* external collaborators (the ClickUp HTTP API, the JS `Date` library)
  are parameters of the embedded functions, so every theorem quantifies
  over their behaviour.
-/

/-! ## JavaScript numeric model: division, `* 100`, `Math.round` -/

/-- A JavaScript number as it occurs in the percentage computations:
either a finite value (kept exact as a rational) or one of the IEEE
special values `NaN`, `Infinity`, `-Infinity`. -/
inductive JSNum where
  | nan : JSNum
  | posInf : JSNum
  | negInf : JSNum
  | fin : ℚ → JSNum
deriving DecidableEq

/-- JavaScript division `a / b` of two finite numbers: `0 / 0` is `NaN`,
`a / 0` for `a ≠ 0` is a signed infinity, otherwise the exact quotient. -/
def jsDiv (a b : ℚ) : JSNum :=
  if b = 0 then
    if a = 0 then JSNum.nan
    else if 0 < a then JSNum.posInf
    else JSNum.negInf
  else JSNum.fin (a / b)

/-- JavaScript multiplication by the positive literal `100`:
`NaN * 100 = NaN`, `±Infinity * 100 = ±Infinity`. -/
def jsMul100 : JSNum → JSNum
  | JSNum.nan => JSNum.nan
  | JSNum.posInf => JSNum.posInf
  | JSNum.negInf => JSNum.negInf
  | JSNum.fin q => JSNum.fin (q * 100)

/-- `Math.round`: on finite values it rounds half toward `+∞`
(`Math.round(x) = ⌊x + 1/2⌋`); `NaN` and the infinities pass through. -/
def jsRound : JSNum → JSNum
  | JSNum.nan => JSNum.nan
  | JSNum.posInf => JSNum.posInf
  | JSNum.negInf => JSNum.negInf
  | JSNum.fin q => JSNum.fin ((⌊q + 1 / 2⌋ : ℤ) : ℚ)

/-- The percentage expression `Math.round((part / whole) * 100)` as it
appears verbatim in `getTimeTrackingReportTool.handler`, in
`handleGetTimeTracking` (summary branch) and twice in
`handleGetTimeTrackingSummary`. -/
def roundPct (part whole : Nat) : JSNum :=
  jsRound (jsMul100 (jsDiv (part : ℚ) (whole : ℚ)))

/-! ## DurationFormatter

`formatDuration` from `src/tools/timetracking.ts` (d/h/m rendering with a
trailing `trim()`), and the sibling tools module's own `formatDuration`
(`h m s` rendering). Strings are built over `List Char` so that the
effect of `String.prototype.trim` can be reasoned about directly. -/

/-- The whitespace test used by `String.prototype.trim`. -/
def jsWs (c : Char) : Bool := c.isWhitespace

/-- `String.prototype.trim`: drop whitespace from both ends. -/
def trimChars (cs : List Char) : List Char :=
  ((cs.dropWhile jsWs).reverse.dropWhile jsWs).reverse

/-- The state of `result` after the days branch of `formatDuration`
(`if (days > 0) result += ...d ``). -/
def fdDays (days : Nat) : List Char :=
  if 0 < days then (toString days).data ++ ['d', ' '] else []

/-- The state of `result` after the hours branch
(`if (remainingHours > 0 || days > 0) result += ...h ``). -/
def fdHours (days remainingHours : Nat) : List Char :=
  if 0 < remainingHours ∨ 0 < days then fdDays days ++ (toString remainingHours).data ++ ['h', ' ']
  else fdDays days

/-- The state of `result` after the minutes branch
(`if (remainingMinutes > 0 || result === '') result += ...m`). -/
def fdMinutes (days remainingHours remainingMinutes : Nat) : List Char :=
  if 0 < remainingMinutes ∨ fdHours days remainingHours = [] then
    fdHours days remainingHours ++ (toString remainingMinutes).data ++ ['m']
  else fdHours days remainingHours

/-- Embeds `formatDuration` from `src/tools/timetracking.ts`:
`if (!ms) return '0m'`, then floor-decompose `ms` into seconds, minutes,
hours and days (`days = hours / 24`, `remainingHours = hours % 24`,
`remainingMinutes = minutes % 60`), build `result` through the three
conditional appends `fdDays` / `fdHours` / `fdMinutes`, and finally
`result.trim()`. Seconds are computed but never rendered. -/
def formatDuration (ms : Nat) : String :=
  if ms = 0 then "0m"
  else
    let minutes := ms / 1000 / 60
    let hours := minutes / 60
    String.mk (trimChars (fdMinutes (hours / 24) (hours % 24) (minutes % 60)))

/-- Embeds the sibling tools module's own `formatDuration` helper:
seconds and minutes are taken modulo 60, hours are not capped, and all
three units are always rendered (`` `${hours}h ${minutes}m ${seconds}s` ``). -/
def formatDurationHMS (millis : Nat) : String :=
  let seconds := (millis / 1000) % 60
  let minutes := (millis / (1000 * 60)) % 60
  let hours := millis / (1000 * 60 * 60)
  toString hours ++ "h " ++ toString minutes ++ "m " ++ toString seconds ++ "s"

/-! ## DateRangeResolver

There are two generations of `getDateRangeForPeriod` in the repository:
the one in `src/tools/timetracking.ts` (numeric timestamps, `throw` on an
unknown period) and the one in the sibling tools module (stringified
timestamps, silent fallback on an unknown period).  Both derive all
boundaries from the JS `Date` library; those calendar computations are
external collaborators here and are packaged into a `LocalCalendar`
record, one field per `Date` expression the code evaluates. -/

/-- The calendar quantities the two resolvers obtain from the JS `Date`
library for one call instant `now`.  Field ↔ source expression:
* `nowMs` — `now.getTime()`;
* `todayMs` — `new Date(y, m, d).getTime()` (local midnight today);
* `yesterdayMs` — `today` shifted by `setDate(getDate() - 1)`;
* `startOfWeekMs` — `today` shifted by `setDate(getDate() - getDay())`;
* `lastWeekStartMs` — `today` shifted by `setDate(getDate() - getDay() - 7)`;
* `lastWeekEndMs` — `today` shifted by `setDate(getDate() - getDay() - 1)`
  then `setHours(23, 59, 59, 999)`;
* `startOfMonthMs` — `new Date(y, m, 1).getTime()`;
* `lastMonthStartMs` — `new Date(y, m - 1, 1).getTime()`;
* `lastMonthEndMs` — `new Date(y, m, 0, 23, 59, 59, 999).getTime()`. -/
structure LocalCalendar where
  nowMs : Int
  todayMs : Int
  yesterdayMs : Int
  startOfWeekMs : Int
  lastWeekStartMs : Int
  lastWeekEndMs : Int
  startOfMonthMs : Int
  lastMonthStartMs : Int
  lastMonthEndMs : Int

/-- The `{ start_date, end_date }` result of a resolver (epoch ms; the
sibling tools module wraps the same numbers in `.toString()`, which the
model drops as pure representation). -/
structure DateRange where
  start_date : Int
  end_date : Int
deriving DecidableEq

/-- Embeds `getDateRangeForPeriod` from `src/tools/timetracking.ts`:
a `switch` on the period token whose `default` branch throws
`` Error(`Invalid period: ${period}`) ``.  The result record starts as
`{ start_date: 0, end_date: now.getTime() }` and each case overwrites
the relevant fields. -/
def getDateRangeForPeriod (cal : LocalCalendar) (period : String) : Except String DateRange :=
  if period = "today" then
    Except.ok { start_date := cal.todayMs, end_date := cal.nowMs }
  else if period = "yesterday" then
    Except.ok { start_date := cal.yesterdayMs, end_date := cal.todayMs - 1 }
  else if period = "this_week" then
    Except.ok { start_date := cal.startOfWeekMs, end_date := cal.nowMs }
  else if period = "last_week" then
    Except.ok { start_date := cal.lastWeekStartMs, end_date := cal.lastWeekEndMs }
  else if period = "this_month" then
    Except.ok { start_date := cal.startOfMonthMs, end_date := cal.nowMs }
  else if period = "last_month" then
    Except.ok { start_date := cal.lastMonthStartMs, end_date := cal.lastMonthEndMs }
  else
    Except.error ("Invalid period: " ++ period)

/-- Embeds the sibling tools module's `getDateRangeForPeriod`: the same
`switch`, except that `yesterday` ends at `today.getTime()` (local
midnight today, with no `- 1`), there is no `custom` case, and the
`default` branch silently returns `{ start_date: today, end_date: now }`
instead of failing. -/
def getDateRangeForPeriodSib (cal : LocalCalendar) (period : String) : DateRange :=
  if period = "today" then
    { start_date := cal.todayMs, end_date := cal.nowMs }
  else if period = "yesterday" then
    { start_date := cal.yesterdayMs, end_date := cal.todayMs }
  else if period = "this_week" then
    { start_date := cal.startOfWeekMs, end_date := cal.nowMs }
  else if period = "last_week" then
    { start_date := cal.lastWeekStartMs, end_date := cal.lastWeekEndMs }
  else if period = "this_month" then
    { start_date := cal.startOfMonthMs, end_date := cal.nowMs }
  else if period = "last_month" then
    { start_date := cal.lastMonthStartMs, end_date := cal.lastMonthEndMs }
  else
    { start_date := cal.todayMs, end_date := cal.nowMs }

/-- Embeds the date-range selection at the top of
`handleGetTimeTrackingSummary`: for `period === 'custom'` it requires
both bounds (`throw new Error('Custom period requires both start_date
and end_date')` otherwise) and passes them through verbatim; for every
other period string it defers to the sibling `getDateRangeForPeriod`. -/
def summaryDateRange (cal : LocalCalendar) (period : String)
    (startRaw endRaw : Option Int) : Except String DateRange :=
  if period = "custom" then
    match startRaw, endRaw with
    | some s, some e => Except.ok { start_date := s, end_date := e }
    | _, _ => Except.error "Custom period requires both start_date and end_date"
  else
    Except.ok (getDateRangeForPeriodSib cal period)

/-! ## RawTimeReport and the flat report aggregation

`getTimeTrackingReportTool.handler` (and the summary branch of the
sibling `handleGetTimeTracking`, which runs the identical loop) folds
over the report's user records: `totalTime += userData.time`, then for
every task of that user pushes a summary row whose percentage divides by
the *running* value of `totalTime`. -/

/-- One task entry of a user record of the raw time report
(`userData.tasks[taskId]`). -/
structure TaskData where
  id : String
  name : String
  time : Nat
deriving DecidableEq

/-- One user record of the raw time report: the user-level `time` total
and the per-task map, modelled as an association list in the iteration
order of `for (const taskId in userData.tasks)`. -/
structure UserRecord where
  time : Nat
  tasks : List (String × TaskData)
deriving DecidableEq

/-- The raw time report (`report.data`). -/
structure TimeReport where
  data : List UserRecord
deriving DecidableEq

/-- One row of the flat per-task summary produced by the report handler. -/
structure TaskTimeSummary where
  taskId : String
  taskName : String
  time : Nat
  timeFormatted : String
  percentage : JSNum
deriving DecidableEq

/-- One iteration of the user loop in the report handler, parametrised by
the duration formatter of the enclosing module (`fmt`): add
`userData.time` to the running total, then push one row per task, with
`percentage: Math.round((taskData.time / totalTime) * 100)` evaluated at
the running total. -/
def reportStep (fmt : Nat → String) (acc : Nat × List TaskTimeSummary) (u : UserRecord) :
    Nat × List TaskTimeSummary :=
  let t := acc.1 + u.time
  (t, acc.2 ++ u.tasks.map (fun p =>
    { taskId := p.2.id, taskName := p.2.name, time := p.2.time,
      timeFormatted := fmt p.2.time,
      percentage := roundPct p.2.time t }))

/-- The whole aggregation loop of `getTimeTrackingReportTool.handler`
(returns the final `totalTime` and the unsorted `taskSummaries`). -/
def reportAggregate (fmt : Nat → String) (report : TimeReport) : Nat × List TaskTimeSummary :=
  report.data.foldl (reportStep fmt) (0, [])

/-- `taskSummaries.sort((a, b) => b.time - a.time)`: a stable sort by
descending time (JS `Array.prototype.sort` is stable). -/
def reportSort (l : List TaskTimeSummary) : List TaskTimeSummary :=
  l.mergeSort (fun a b => decide (b.time ≤ a.time))

/-! ## TimeAggregationEngine: `handleGetTimeTrackingSummary`

The grouped summary fetches one `TaskDetail` per task (list/space owner
names), and, for `groupBy = 'day'`, the raw time entries of each task;
the day key and display name come from the JS `Date` library.  All four
are collaborator parameters, collected in `SummaryEnv`. -/

/-- Task detail fetched by `taskService.getTask(taskId)`; only the fields
the summary handler reads. -/
structure TaskDetail where
  name : String
  listId : String
  listName : String
  spaceId : String
  spaceName : String

/-- One raw time entry as consumed by the day grouping:
`parseIntₘ(entry.start)` and `entry.duration ? parseInt(entry.duration) : 0`
(`none` models a missing/falsy duration). -/
structure RawEntry where
  start : Int
  duration : Option Nat

/-- The `groupBy` parameter of `get_time_tracking_summary`. -/
inductive GroupBy where
  | task : GroupBy
  | list : GroupBy
  | space : GroupBy
  | day : GroupBy
deriving DecidableEq

/-- Collaborators used by the summary handler. -/
structure SummaryEnv where
  getTask : String → TaskDetail
  getTimeEntries : String → List RawEntry
  dayKeyOf : Int → String
  dayNameOf : Int → String

/-- A per-task accumulator inside one group
(`summaryItems[key].tasks[taskId]`). -/
structure TaskAcc where
  id : String
  name : String
  time : Nat
deriving DecidableEq

/-- A group accumulator (`summaryItems[key]`). -/
structure GroupAcc where
  groupName : String
  time : Nat
  tasks : List (String × TaskAcc)
deriving DecidableEq

/-- `if (!g.tasks[taskId]) g.tasks[taskId] = { id, name, time: 0 };
g.tasks[taskId].time += dt` on the association-list model: initialise an
absent entry (appending preserves object insertion order), then add. -/
def bumpTask (tasks : List (String × TaskAcc)) (taskId tname : String) (dt : Nat) :
    List (String × TaskAcc) :=
  match tasks with
  | [] => [(taskId, { id := taskId, name := tname, time := dt })]
  | (k, a) :: rest =>
    if k = taskId then (k, { a with time := a.time + dt }) :: rest
    else (k, a) :: bumpTask rest taskId tname dt

/-- The double increment performed for one (group key, task) pair:
initialise an absent group (`{ groupName, time: 0, tasks: {} }`), then
`group.time += dt` and the task-level bump.  The stored `groupName` of an
existing group is never overwritten, exactly as in the source. -/
def bumpGroup (items : List (String × GroupAcc)) (key gname taskId tname : String) (dt : Nat) :
    List (String × GroupAcc) :=
  match items with
  | [] => [(key, { groupName := gname, time := dt, tasks := bumpTask [] taskId tname dt })]
  | (k, g) :: rest =>
    if k = key then
      (k, { g with time := g.time + dt, tasks := bumpTask g.tasks taskId tname dt }) :: rest
    else (k, g) :: bumpGroup rest key gname taskId tname dt

/-- Processing of one `(taskId, taskData)` pair of one user record:
fetch the task detail, then perform the bump determined by `groupBy` —
for `'day'`, one bump per raw time entry of the task (keyed by the
entry's local calendar day) with the entry's own duration; otherwise a
single bump with the report's per-task time `taskData.time`.  In every
mode the task-level name stored on first touch is the *fetched*
`task.name`. -/
def processTask (env : SummaryEnv) (groupBy : GroupBy)
    (items : List (String × GroupAcc)) (taskId : String) (td : TaskData) :
    List (String × GroupAcc) :=
  let task := env.getTask taskId
  match groupBy with
  | GroupBy.day =>
      (env.getTimeEntries taskId).foldl
        (fun its e =>
          bumpGroup its (env.dayKeyOf e.start) (env.dayNameOf e.start)
            taskId task.name (e.duration.getD 0))
        items
  | GroupBy.task => bumpGroup items taskId td.name taskId task.name td.time
  | GroupBy.list => bumpGroup items task.listId task.listName taskId task.name td.time
  | GroupBy.space => bumpGroup items task.spaceId task.spaceName taskId task.name td.time

/-- One iteration of the user loop of `handleGetTimeTrackingSummary`:
`totalTime += userData.time`, then process every task of the user. -/
def summaryUserStep (env : SummaryEnv) (groupBy : GroupBy)
    (acc : Nat × List (String × GroupAcc)) (u : UserRecord) :
    Nat × List (String × GroupAcc) :=
  (acc.1 + u.time, u.tasks.foldl (fun its p => processTask env groupBy its p.1 p.2) acc.2)

/-- The accumulation phase of `handleGetTimeTrackingSummary`: the final
`totalTime` and the `summaryItems` map. -/
def summaryAccumulate (env : SummaryEnv) (groupBy : GroupBy) (report : TimeReport) :
    Nat × List (String × GroupAcc) :=
  report.data.foldl (summaryUserStep env groupBy) (0, [])

/-- One element of the final `tasks` array inside a group summary. -/
structure TaskOut where
  id : String
  name : String
  time : Nat
  timeFormatted : String
  percentage : JSNum
deriving DecidableEq

/-- One element of the final `summary` array (a GroupSummary). -/
structure GroupSummaryOut where
  groupKey : String
  groupName : String
  time : Nat
  timeFormatted : String
  percentage : JSNum
  tasks : List TaskOut
deriving DecidableEq

/-- The per-group finalisation inside `Object.keys(summaryItems).map`:
build the `tasks` array (task percentage relative to the group's time),
sort it by descending time, and attach the group-level percentage
relative to the grand `totalTime`. -/
def finalizeGroup (totalTime : Nat) (kg : String × GroupAcc) : GroupSummaryOut :=
  let tasksArray := (kg.2.tasks.map (fun kt =>
    ({ id := kt.1, name := kt.2.name, time := kt.2.time,
       timeFormatted := formatDurationHMS kt.2.time,
       percentage := roundPct kt.2.time kg.2.time } : TaskOut))).mergeSort
    (fun a b => decide (b.time ≤ a.time))
  { groupKey := kg.1, groupName := kg.2.groupName, time := kg.2.time,
    timeFormatted := formatDurationHMS kg.2.time,
    percentage := roundPct kg.2.time totalTime,
    tasks := tasksArray }

/-- The full `summary` array produced by `handleGetTimeTrackingSummary`:
finalise every group, then `summaryArray.sort((a, b) => b.time - a.time)`. -/
def summaryArray (env : SummaryEnv) (groupBy : GroupBy) (report : TimeReport) :
    List GroupSummaryOut :=
  let acc := summaryAccumulate env groupBy report
  (acc.2.map (finalizeGroup acc.1)).mergeSort (fun a b => decide (b.time ≤ a.time))

/-! ## HierarchyIndex / NameResolver: `findTaskIDByName`

Both the sibling tools module and `src/tools/utils.ts` contain the same
`findTaskIDByName`: walk `hierarchy.root.children` (the spaces); inside
each space first the direct `list` children, then the `list` children of
each `folder` child; in each list fetch the tasks and return the first
one whose lowercased name equals the lowercased query.  The whole body
sits in a `try` whose `catch` logs and returns `undefined`. -/

/-- The `type` tag of a hierarchy node. -/
inductive NodeType where
  | space : NodeType
  | folder : NodeType
  | list : NodeType
  | task : NodeType
deriving DecidableEq

/-- A node of the workspace hierarchy tree. -/
inductive HNode where
  | node (id : String) (name : String) (ntype : NodeType) (children : List HNode)

/-- The node's id. -/
def HNode.id : HNode → String
  | HNode.node i _ _ _ => i

/-- The node's type tag. -/
def HNode.ntype : HNode → NodeType
  | HNode.node _ _ t _ => t

/-- The node's children, in fetched order. -/
def HNode.children : HNode → List HNode
  | HNode.node _ _ _ c => c

/-- The workspace hierarchy as consumed by `findTaskIDByName`
(`hierarchy.root.children` are the spaces). -/
structure Hierarchy where
  root : HNode

/-- A task as returned by `taskService.getTasks(listId)` (only the fields
the resolver reads). -/
structure TaskLite where
  id : String
  name : String
deriving DecidableEq

/-- `s.toLowerCase()` modelled character-wise (`Char.toLower` per code
point, which coincides with the JS behaviour on the ASCII names the
resolver compares). -/
def lowerChars (s : String) : List Char :=
  s.data.map Char.toLower

/-- The match predicate
`t.name.toLowerCase() === taskName.toLowerCase()`. -/
def taskMatch (taskName : String) (t : TaskLite) : Bool :=
  lowerChars t.name == lowerChars taskName

/-- `spaceNode.children.filter(c => c.type === 'list')`. -/
def listChildren (n : HNode) : List HNode :=
  n.children.filter (fun c => c.ntype == NodeType.list)

/-- `spaceNode.children.filter(c => c.type === 'folder')`. -/
def folderChildren (n : HNode) : List HNode :=
  n.children.filter (fun c => c.ntype == NodeType.folder)

/-- The inner loop over a sequence of list nodes: fetch each list's
tasks, return the id of the first case-insensitive match. -/
def findInLists (getTasks : String → List TaskLite) (taskName : String) :
    List HNode → Option String
  | [] => none
  | l :: rest =>
    match (getTasks l.id).find? (taskMatch taskName) with
    | some t => some t.id
    | none => findInLists getTasks taskName rest

/-- The loop over the folder children of a space: search each folder's
list children in order. -/
def findInFolders (getTasks : String → List TaskLite) (taskName : String) :
    List HNode → Option String
  | [] => none
  | f :: rest =>
    match findInLists getTasks taskName (listChildren f) with
    | some i => some i
    | none => findInFolders getTasks taskName rest

/-- The outer loop over the spaces: direct lists first, then folder
lists, then the next space. -/
def findInSpaces (getTasks : String → List TaskLite) (taskName : String) :
    List HNode → Option String
  | [] => none
  | sp :: rest =>
    match findInLists getTasks taskName (listChildren sp) with
    | some i => some i
    | none =>
      match findInFolders getTasks taskName (folderChildren sp) with
      | some i => some i
      | none => findInSpaces getTasks taskName rest

/-- `findTaskIDByName` with an infallible task-listing collaborator. -/
def findTaskIDByName (getTasks : String → List TaskLite) (h : Hierarchy)
    (taskName : String) : Option String :=
  findInSpaces getTasks taskName h.root.children

/-- The traversal order of `findTaskIDByName` spelled out as one flat
task sequence: per space, the tasks of its direct lists, then the tasks
of the lists under its folders. -/
def traversalTasks (getTasks : String → List TaskLite) (h : Hierarchy) : List TaskLite :=
  h.root.children.flatMap (fun sp =>
    (listChildren sp).flatMap (fun l => getTasks l.id)
    ++ (folderChildren sp).flatMap (fun f => (listChildren f).flatMap (fun l => getTasks l.id)))

/-! ### The fallible resolver and the start-timer resolution prefix

In the source every collaborator call can reject; the resolver's `catch`
turns *any* failure into `undefined`, and the caller then reports the
task as not found. -/

/-- `findInLists` against a fallible task-listing collaborator: a
rejected fetch aborts the walk with the error. -/
def findInListsE (getTasks : String → Except String (List TaskLite)) (taskName : String) :
    List HNode → Except String (Option String)
  | [] => Except.ok none
  | l :: rest =>
    match getTasks l.id with
    | Except.error e => Except.error e
    | Except.ok ts =>
      match ts.find? (taskMatch taskName) with
      | some t => Except.ok (some t.id)
      | none => findInListsE getTasks taskName rest

/-- Fallible variant of `findInFolders`. -/
def findInFoldersE (getTasks : String → Except String (List TaskLite)) (taskName : String) :
    List HNode → Except String (Option String)
  | [] => Except.ok none
  | f :: rest =>
    match findInListsE getTasks taskName (listChildren f) with
    | Except.error e => Except.error e
    | Except.ok (some i) => Except.ok (some i)
    | Except.ok none => findInFoldersE getTasks taskName rest

/-- Fallible variant of `findInSpaces`. -/
def findInSpacesE (getTasks : String → Except String (List TaskLite)) (taskName : String) :
    List HNode → Except String (Option String)
  | [] => Except.ok none
  | sp :: rest =>
    match findInListsE getTasks taskName (listChildren sp) with
    | Except.error e => Except.error e
    | Except.ok (some i) => Except.ok (some i)
    | Except.ok none =>
      match findInFoldersE getTasks taskName (folderChildren sp) with
      | Except.error e => Except.error e
      | Except.ok (some i) => Except.ok (some i)
      | Except.ok none => findInSpacesE getTasks taskName rest

/-- The full `findTaskIDByName`: fetch the hierarchy, walk it, and — per
the `try/catch` around the whole body — map *every* collaborator failure
to `undefined` (`none`). -/
def findTaskIDByNameE (getHierarchy : Except String Hierarchy)
    (getTasks : String → Except String (List TaskLite)) (taskName : String) :
    Option String :=
  match getHierarchy with
  | Except.error _ => none
  | Except.ok h =>
    match findInSpacesE getTasks taskName h.root.children with
    | Except.error _ => none
    | Except.ok r => r

/-- The not-found message thrown by the callers of `findTaskIDByName`
(`handleStartTimer`, `handleGetTimeTracking`, `handleAddTimeEntry`). -/
def notFoundMsg (taskName : String) : String :=
  "Task with name \"" ++ taskName ++ "\" not found"

/-- The task-id resolution prefix of the sibling `handleStartTimer`
(before its `try` block): an explicit `taskId` wins; otherwise a
`taskName` is resolved via `findTaskIDByName`, whose `undefined` result
is thrown as the not-found error; with neither parameter a usage error
is thrown. -/
def resolveTaskIdForTimer (getHierarchy : Except String Hierarchy)
    (getTasks : String → Except String (List TaskLite))
    (taskIdParam taskNameParam : Option String) : Except String String :=
  match taskIdParam with
  | some i => Except.ok i
  | none =>
    match taskNameParam with
    | some n =>
      match findTaskIDByNameE getHierarchy getTasks n with
      | some i => Except.ok i
      | none => Except.error (notFoundMsg n)
    | none => Except.error "Either taskId or taskName must be provided"

/-! ## Timer operations: start timer and current timer -/

/-- A running or created time entry (only the fields the handlers read). -/
structure TimerInfo where
  id : String
  taskId : String
  taskName : String
  startMs : Int
  description : String
  billable : Bool
  tags : List String
deriving DecidableEq

/-- The observable outcome of a start-timer handler:
* `notStarted` — the structured `success: false` payload naming the
  currently running timer ("There's already a timer running …");
* `started` — the success payload;
* `errorText` — an error payload. -/
inductive StartTimerOutcome where
  | notStarted (currentTaskId currentTaskName : String) : StartTimerOutcome
  | started (taskId taskName : String) : StartTimerOutcome
  | errorText (msg : String) : StartTimerOutcome
deriving DecidableEq

/-- Discriminator: is this the structured already-running result? -/
def StartTimerOutcome.isNotStarted : StartTimerOutcome → Bool
  | StartTimerOutcome.notStarted _ _ => true
  | _ => false

/-- The collaborator behaviour visible to a start-timer handler:
what `getCurrentTimer()` would report, and what `startTimer(...)` would
return if called. -/
structure TimerEnv where
  currentTimerResult : Except String (Option TimerInfo)
  startResult : Except String TimerInfo

/-- Embeds the `try` body of the sibling `handleStartTimer` (task id
already resolved): first `getCurrentTimer()`; if a timer is running,
return the structured `success: false` "already running" result naming
it; otherwise call `startTimer` and report the outcome; any rejection is
caught and rendered as `Error starting timer: …`. -/
def handleStartTimerSib (env : TimerEnv) : StartTimerOutcome :=
  match env.currentTimerResult with
  | Except.error e => StartTimerOutcome.errorText ("Error starting timer: " ++ e)
  | Except.ok (some t) => StartTimerOutcome.notStarted t.taskId t.taskName
  | Except.ok none =>
    match env.startResult with
    | Except.ok te => StartTimerOutcome.started te.taskId te.taskName
    | Except.error e => StartTimerOutcome.errorText ("Error starting timer: " ++ e)

/-- Embeds `startTimerTool.handler` from `src/tools/timetracking.ts`
(task id already resolved): it calls `timeTrackingService.startTimer`
directly — it never consults `getCurrentTimer`, so
`env.currentTimerResult` is simply not read — and its `catch` renders a
`status: "Error"` payload. -/
def startTimerToolHandler (env : TimerEnv) : StartTimerOutcome :=
  match env.startResult with
  | Except.ok te => StartTimerOutcome.started te.taskId te.taskName
  | Except.error e => StartTimerOutcome.errorText e

/-- The upstream HTTP outcome of the `GET …/time_entries/current` call as
propagated by `makeRequest` (modelled on the evidence of both service
generations: axios-style rejections carry the HTTP status). `payload d`
is a 2xx response whose `response.data.data` is `d` (`none` = empty). -/
inductive UpstreamResult where
  | payload (data : Option TimerInfo) : UpstreamResult
  | httpError (status : Option Nat) (msg : String) : UpstreamResult
deriving DecidableEq

/-- Embeds `getCurrentTimer` of `src/services/clickup/timetracking.ts`:
returns `response.data.data`; a caught rejection with
`error.response.status === 404` is translated to `null` ("no timer
running"); any other failure is rethrown through `handleApiError`, which
prefixes the original message. -/
def getCurrentTimerSvc (resp : UpstreamResult) : Except String (Option TimerInfo) :=
  match resp with
  | UpstreamResult.payload d => Except.ok d
  | UpstreamResult.httpError (some 404) _ => Except.ok none
  | UpstreamResult.httpError _ m => Except.error ("Error getting current timer: " ++ m)

/-- Embeds `getCurrentTimer` of the other service generation
(`TimeTrackingService.getCurrentTimer`): an empty `response.data.data`
returns `null`, but there is no 404 special case — every HTTP rejection
is wrapped (`Failed to get current timer: …`) and rethrown. -/
def getCurrentTimerSvc2 (resp : UpstreamResult) : Except String (Option TimerInfo) :=
  match resp with
  | UpstreamResult.payload d => Except.ok d
  | UpstreamResult.httpError _ m => Except.error ("Failed to get current timer: " ++ m)

/-- The observable outcome of `handleGetCurrentTimer`. -/
inductive CurrentTimerOutcome where
  | noTimer : CurrentTimerOutcome
  | running (taskId taskName : String) : CurrentTimerOutcome
  | errorText (msg : String) : CurrentTimerOutcome
deriving DecidableEq

/-- Embeds the sibling `handleGetCurrentTimer`: `null` from the service
becomes the structured `running: false` result; a thrown service error
is caught and rendered as `Error getting current timer: …`. -/
def handleGetCurrentTimer (svc : Except String (Option TimerInfo)) : CurrentTimerOutcome :=
  match svc with
  | Except.error e => CurrentTimerOutcome.errorText ("Error getting current timer: " ++ e)
  | Except.ok none => CurrentTimerOutcome.noTimer
  | Except.ok (some t) => CurrentTimerOutcome.running t.taskId t.taskName

/-! ## General lemmas about the aggregation loops -/

/-- The running `totalTime` of the flat report loop only ever adds the
user-level `time` field. -/
theorem reportFoldl_fst (fmt : Nat → String) :
    ∀ (l : List UserRecord) (acc : Nat × List TaskTimeSummary),
      (l.foldl (reportStep fmt) acc).1 = acc.1 + (l.map UserRecord.time).sum := by
  intro l
  induction l with
  | nil => intro acc; simp
  | cons u t ih =>
    intro acc
    rw [List.foldl_cons, ih]
    simp [reportStep]
    omega

/-- The running `totalTime` of the summary loop only ever adds the
user-level `time` field. -/
theorem summaryFoldl_fst (env : SummaryEnv) (groupBy : GroupBy) :
    ∀ (l : List UserRecord) (acc : Nat × List (String × GroupAcc)),
      (l.foldl (summaryUserStep env groupBy) acc).1 = acc.1 + (l.map UserRecord.time).sum := by
  intro l
  induction l with
  | nil => intro acc; simp
  | cons u t ih =>
    intro acc
    rw [List.foldl_cons, ih]
    simp [summaryUserStep]
    omega

/-- The grand total as §4.4 of the specification defines it: the sum
over all user records of their per-task times.  (This definition follows
the SPEC's words, for comparison with the code's total.) -/
def specTaskTimeSum (r : TimeReport) : Nat :=
  (r.data.map (fun u => (u.tasks.map (fun p => p.2.time)).sum)).sum

/-- The report on which the two totals differ: one user whose
`time` field (5000) disagrees with the sum of its per-task times (3000),
exactly the inconsistency §3 of the specification says must not be
trusted. -/
def reportC1 : TimeReport :=
  { data := [{ time := 5000, tasks := [("t1", { id := "t1", name := "A", time := 3000 })] }] }

/-- C1 counterexample: on `reportC1` the handler's grand total is 5000 —
the user-level `time` field — while the sum of all per-task times is
3000, so the total is *not* the sum of per-task times and the user-level
field *is* used. -/
theorem c1_total_uses_user_level_time :
    (reportAggregate formatDuration reportC1).1 = 5000
    ∧ specTaskTimeSum reportC1 = 3000
    ∧ (reportAggregate formatDuration reportC1).1 ≠ specTaskTimeSum reportC1 := by
  decide

/-- C1 (amended): in both `get_time_tracking_report` and
`get_time_tracking_summary` the grand total is the sum of the
*user-level* `time` fields of the report (`totalTime += userData.time`);
the per-task times are never summed into the grand total. -/
theorem c1_grand_total_is_user_level_sum (fmt : Nat → String) (env : SummaryEnv)
    (groupBy : GroupBy) (report : TimeReport) :
    (reportAggregate fmt report).1 = (report.data.map UserRecord.time).sum
    ∧ (summaryAccumulate env groupBy report).1 = (report.data.map UserRecord.time).sum := by
  constructor
  · rw [reportAggregate, reportFoldl_fst]
    simp
  · rw [summaryAccumulate, summaryFoldl_fst]
    simp

/-- A report for a period with no tracked time: one user record with
`time = 0` and a single task entry with `time = 0`. -/
def reportC2 : TimeReport :=
  { data := [{ time := 0, tasks := [("t1", { id := "t1", name := "A", time := 0 })] }] }

/-- C2 counterexample: the percentage computation has no zero guard —
`Math.round((0 / 0) * 100)` is `NaN`, not `0`, and a positive part over a
zero whole gives `Infinity`; on `reportC2` the handler actually emits a
`NaN` percentage. -/
theorem c2_zero_whole_gives_nan :
    roundPct 0 0 = JSNum.nan
    ∧ roundPct 3 0 = JSNum.posInf
    ∧ (reportAggregate formatDuration reportC2).2.map TaskTimeSummary.percentage
        = [JSNum.nan] := by
  decide

/-- C2 (amended): the percentage computation performs a bare JS division:
for a non-zero whole it yields the finite rounded percentage, but when
the whole is 0 it yields `NaN` (part 0) or `Infinity` (part positive) —
there is no `percentage(x, 0) = 0` guard in the code. -/
theorem c2_percentage_behaviour (part whole : Nat) :
    roundPct part whole =
      (if whole = 0 then (if part = 0 then JSNum.nan else JSNum.posInf)
       else JSNum.fin ((⌊(part : ℚ) / (whole : ℚ) * 100 + 1 / 2⌋ : ℤ) : ℚ)) := by
  by_cases hw : whole = 0
  · subst hw
    by_cases hp : part = 0
    · subst hp
      simp [roundPct, jsDiv, jsMul100, jsRound]
    · have hp' : 0 < (part : ℚ) := by
        exact_mod_cast Nat.pos_of_ne_zero hp
      simp [roundPct, jsDiv, jsMul100, jsRound, hp, hp', Nat.cast_eq_zero]
  · have hw' : ((whole : ℚ)) ≠ 0 := Nat.cast_ne_zero.mpr hw
    simp [roundPct, jsDiv, jsMul100, jsRound, hw, hw']

/-! ## Claims about the date-range resolvers (C3, C4) -/

/-- A concrete call instant for the counterexamples (the values are the
calendar quantities for a weekday in November 2023, UTC; only their
relative pattern matters). -/
def cal0 : LocalCalendar :=
  { nowMs := 1700000000000
    todayMs := 1699999200000
    yesterdayMs := 1699912800000
    startOfWeekMs := 1699740000000
    lastWeekStartMs := 1699135200000
    lastWeekEndMs := 1699739999999
    startOfMonthMs := 1698796800000
    lastMonthStartMs := 1696118400000
    lastMonthEndMs := 1698796799999 }

/-- C3 counterexample: on the sibling resolver (one of the two resolvers
the claim is about) the `yesterday` range ends exactly at local midnight
of the current day, not one millisecond before it. -/
theorem c3_sibling_end_is_midnight :
    (getDateRangeForPeriodSib cal0 "yesterday").end_date
      ≠ (getDateRangeForPeriodSib cal0 "today").start_date - 1 := by
  decide

/-- C3 (amended): the `src/tools/timetracking.ts` resolver satisfies
`resolve('yesterday').end = resolve('today').start - 1` for every call
instant, but the sibling resolver returns
`resolve('yesterday').end = resolve('today').start` exactly (its
`yesterday` case has no `- 1`, so an entry exactly at midnight falls into
both ranges). -/
theorem c3_yesterday_today_boundary (cal : LocalCalendar) :
    ((getDateRangeForPeriod cal "yesterday").map DateRange.end_date
      = (getDateRangeForPeriod cal "today").map (fun r => r.start_date - 1))
    ∧ (getDateRangeForPeriodSib cal "yesterday").end_date
        = (getDateRangeForPeriodSib cal "today").start_date := by
  exact ⟨rfl, rfl⟩

/-- C4 counterexample: for the unknown period token `"fortnight"` the
sibling resolver does not fail — it silently returns the same range as
`"today"` (its `default` branch). -/
theorem c4_sibling_silent_default :
    getDateRangeForPeriodSib cal0 "fortnight"
      = { start_date := cal0.todayMs, end_date := cal0.nowMs }
    ∧ getDateRangeForPeriodSib cal0 "fortnight" = getDateRangeForPeriodSib cal0 "today" := by
  decide

/-- C4 (amended): the `src/tools/timetracking.ts` resolver throws
`Invalid period: …` on every period outside its six tokens, and the
summary handler rejects `custom` with a missing bound; but the sibling
resolver never fails — every unknown token silently defaults to the
`today` range. -/
theorem c4_invalid_period (cal : LocalCalendar) (period : String)
    (h : period ∉ (["today", "yesterday", "this_week", "last_week",
      "this_month", "last_month"] : List String)) :
    getDateRangeForPeriod cal period = Except.error ("Invalid period: " ++ period)
    ∧ (∀ sr er : Option Int, sr.isNone ∨ er.isNone →
        summaryDateRange cal "custom" sr er
          = Except.error "Custom period requires both start_date and end_date")
    ∧ getDateRangeForPeriodSib cal period
        = { start_date := cal.todayMs, end_date := cal.nowMs } := by
  simp only [List.mem_cons, List.not_mem_nil, or_false, not_or] at h
  obtain ⟨h1, h2, h3, h4, h5, h6⟩ := h
  refine ⟨?_, ?_, ?_⟩
  · simp [getDateRangeForPeriod, h1, h2, h3, h4, h5, h6]
  · intro sr er hmiss
    cases sr <;> cases er <;> simp_all [summaryDateRange]
  · simp [getDateRangeForPeriodSib, h1, h2, h3, h4, h5, h6]

/-- Witness for `c4_invalid_period` at the concrete period
`"fortnight"`. -/
theorem c4_invalid_period_witness :
    getDateRangeForPeriod cal0 "fortnight"
      = Except.error ("Invalid period: " ++ "fortnight") :=
  (c4_invalid_period cal0 "fortnight" (by decide)).1

/-! ## Claims about the duration formatter (C5) -/

/-- Dropping a prefix cannot lose every element failing the predicate. -/
theorem exists_not_dropWhile {p : Char → Bool} :
    ∀ cs : List Char, (∃ c ∈ cs, p c = false) → ∃ c ∈ cs.dropWhile p, p c = false := by
  intro cs
  induction cs with
  | nil => intro h; exact absurd h (by simp)
  | cons a t ih =>
    intro h
    by_cases hp : p a
    · rw [List.dropWhile_cons_of_pos hp]
      apply ih
      obtain ⟨c, hc, hcp⟩ := h
      rcases List.mem_cons.mp hc with rfl | hct
      · rw [hp] at hcp
        exact absurd hcp (by simp)
      · exact ⟨c, hct, hcp⟩
    · rw [List.dropWhile_cons_of_neg hp]
      exact ⟨a, List.mem_cons_self a t, by simpa using hp⟩

/-- A character list containing a non-whitespace character does not trim
to the empty list. -/
theorem trimChars_ne_nil {cs : List Char} (h : ∃ c ∈ cs, jsWs c = false) :
    trimChars cs ≠ [] := by
  unfold trimChars
  intro hcon
  have h1 := exists_not_dropWhile cs h
  have h2 : ∃ c ∈ (cs.dropWhile jsWs).reverse, jsWs c = false := by
    obtain ⟨c, hc, hp⟩ := h1
    exact ⟨c, List.mem_reverse.mpr hc, hp⟩
  have h3 := exists_not_dropWhile _ h2
  rw [List.reverse_eq_nil_iff] at hcon
  obtain ⟨c, hc, _⟩ := h3
  rw [hcon] at hc
  exact List.not_mem_nil c hc

/-- A non-empty hours-stage string contains a non-whitespace unit letter
(`'h'` or `'d'`). -/
theorem fdHours_has_unit (d h : Nat) (hne : fdHours d h ≠ []) :
    ∃ c ∈ fdHours d h, jsWs c = false := by
  unfold fdHours
  by_cases hc : 0 < h ∨ 0 < d
  · rw [if_pos hc]
    exact ⟨'h', by simp, by decide⟩
  · rw [if_neg hc]
    unfold fdDays
    by_cases hd : 0 < d
    · rw [if_pos hd]
      exact ⟨'d', by simp, by decide⟩
    · exfalso
      apply hne
      unfold fdHours fdDays
      rw [if_neg hc, if_neg hd]

/-- The minutes-stage string always contains a non-whitespace unit
letter. -/
theorem fdMinutes_has_unit (d h m : Nat) :
    ∃ c ∈ fdMinutes d h m, jsWs c = false := by
  unfold fdMinutes
  by_cases hc : 0 < m ∨ fdHours d h = []
  · rw [if_pos hc]
    exact ⟨'m', by simp, by decide⟩
  · rw [if_neg hc]
    push_neg at hc
    exact fdHours_has_unit d h hc.2

/-- `formatDuration` never returns the empty string. -/
theorem formatDuration_ne_empty (ms : Nat) : formatDuration ms ≠ "" := by
  by_cases h0 : ms = 0
  · subst h0; decide
  · intro hcon
    have hdata : trimChars (fdMinutes (ms / 1000 / 60 / 60 / 24)
        (ms / 1000 / 60 / 60 % 24) (ms / 1000 / 60 % 60)) = [] := by
      have hd := congrArg String.data hcon
      simpa [formatDuration, h0] using hd
    exact trimChars_ne_nil (fdMinutes_has_unit _ _ _) hdata

/-- C5 counterexample: one exact hour formats as `"1h"`, not the claimed
`"1h 0m"` — the minutes branch only renders when `remainingMinutes > 0`
or nothing has been rendered yet. -/
theorem c5_one_hour_has_no_minutes : formatDuration 3600000 ≠ "1h 0m" := by decide

/-- C5 (amended): `format(0) = "0m"`, `format(90000) = "1m"`,
`format(3600000) = "1h"` (zero minutes are dropped when an hour or day
component was rendered, so the unit below the highest non-zero unit is
*not* always shown), `format(90000000) = "1d 1h"` (a day component is
present), and for every non-negative integer input the returned string is
non-empty (minutes are always rendered when every higher unit is zero). -/
theorem c5_formatDuration_shape :
    formatDuration 0 = "0m"
    ∧ formatDuration 90000 = "1m"
    ∧ formatDuration 3600000 = "1h"
    ∧ formatDuration 90000000 = "1d 1h"
    ∧ 'd' ∈ (formatDuration 90000000).data
    ∧ ∀ ms : Nat, formatDuration ms ≠ "" :=
  ⟨by decide, by decide, by decide, by decide, by decide, formatDuration_ne_empty⟩

/-! ## Claim C6: name resolution is case-insensitive first-match -/

/-- `findInLists` is exactly: first case-insensitive match over the
concatenation of the lists' task sequences. -/
theorem findInLists_eq (g : String → List TaskLite) (n : String) :
    ∀ ls : List HNode,
      findInLists g n ls
        = ((ls.flatMap (fun l => g l.id)).find? (taskMatch n)).map TaskLite.id := by
  intro ls
  induction ls with
  | nil => simp [findInLists]
  | cons l rest ih =>
    rw [List.flatMap_cons, List.find?_append]
    cases hf : (g l.id).find? (taskMatch n) with
    | some t => simp [findInLists, hf]
    | none => simp [findInLists, hf, ih]

/-- `findInFolders` is the first match over the folders' list tasks in
order. -/
theorem findInFolders_eq (g : String → List TaskLite) (n : String) :
    ∀ fs : List HNode,
      findInFolders g n fs
        = ((fs.flatMap (fun f => (listChildren f).flatMap (fun l => g l.id))).find?
            (taskMatch n)).map TaskLite.id := by
  intro fs
  induction fs with
  | nil => simp [findInFolders]
  | cons f rest ih =>
    rw [List.flatMap_cons, List.find?_append]
    cases hf : ((listChildren f).flatMap (fun l => g l.id)).find? (taskMatch n) with
    | some t => simp [findInFolders, findInLists_eq, hf]
    | none => simp [findInFolders, findInLists_eq, hf, ih]

/-- `findInSpaces` is the first match over the whole traversal order:
per space, direct lists first, then folder lists. -/
theorem findInSpaces_eq (g : String → List TaskLite) (n : String) :
    ∀ sps : List HNode,
      findInSpaces g n sps
        = ((sps.flatMap (fun sp =>
            (listChildren sp).flatMap (fun l => g l.id)
            ++ (folderChildren sp).flatMap
                (fun f => (listChildren f).flatMap (fun l => g l.id)))).find?
              (taskMatch n)).map TaskLite.id := by
  intro sps
  induction sps with
  | nil => simp [findInSpaces]
  | cons sp rest ih =>
    rw [List.flatMap_cons, List.find?_append, List.find?_append]
    cases hd : ((listChildren sp).flatMap (fun l => g l.id)).find? (taskMatch n) with
    | some t => simp [findInSpaces, findInLists_eq, hd]
    | none =>
      cases hf : ((folderChildren sp).flatMap
          (fun f => (listChildren f).flatMap (fun l => g l.id))).find? (taskMatch n) with
      | some t => simp [findInSpaces, findInLists_eq, findInFolders_eq, hd, hf]
      | none => simp [findInSpaces, findInLists_eq, findInFolders_eq, hd, hf, ih]

/-- Scenario for C6: one space containing two direct lists. -/
def hierC6 : Hierarchy :=
  { root := HNode.node "root" "Workspace" NodeType.space
      [HNode.node "S1" "Space One" NodeType.space
        [HNode.node "L1" "List One" NodeType.list [],
         HNode.node "L2" "List Two" NodeType.list []]] }

/-- Scenario task listing for C6: both lists contain a task named
`"Fix Bug"`; the one in the first-traversed list has id `"T1"`. -/
def getTasksC6 (listId : String) : List TaskLite :=
  if listId = "L1" then [{ id := "T1", name := "Fix Bug" }]
  else if listId = "L2" then [{ id := "T2", name := "Fix Bug" }]
  else []

/-- C6: `findTaskIDByName` returns the id of the *first* task, in
traversal order (per space: direct lists, then folder lists), whose
lowercased name equals the lowercased query — so matching is
case-insensitive and exact, duplicates resolve deterministically to the
first-traversed list with no ambiguity error; concretely, with two lists
both containing a task named `"Fix Bug"`, the query `"fix bug"` returns
the first list's `"T1"`. -/
theorem c6_first_match_case_insensitive (getTasks : String → List TaskLite)
    (h : Hierarchy) (taskName : String) :
    findTaskIDByName getTasks h taskName
      = ((traversalTasks getTasks h).find? (taskMatch taskName)).map TaskLite.id
    ∧ findTaskIDByName getTasksC6 hierC6 "fix bug" = some "T1" := by
  constructor
  · rw [findTaskIDByName, traversalTasks, findInSpaces_eq]
  · decide

/-! ## Claim C7: each group's time equals the sum of its per-task times -/

/-- The sum of the per-task times stored in a group accumulator. -/
def taskSum (tasks : List (String × TaskAcc)) : Nat :=
  (tasks.map (fun kt => kt.2.time)).sum

/-- The loop invariant: every accumulated group's `time` equals the sum
of its per-task times. -/
def groupInv (items : List (String × GroupAcc)) : Prop :=
  ∀ kg ∈ items, taskSum kg.2.tasks = kg.2.time

/-- A task-level bump adds exactly `dt` to the per-task sum. -/
theorem bumpTask_sum (taskId tname : String) (dt : Nat) :
    ∀ tasks, taskSum (bumpTask tasks taskId tname dt) = taskSum tasks + dt := by
  intro tasks
  induction tasks with
  | nil => simp [bumpTask, taskSum]
  | cons p rest ih =>
    obtain ⟨k, a⟩ := p
    by_cases hk : k = taskId
    · simp [bumpTask, hk, taskSum]
      omega
    · simp [bumpTask, hk, taskSum] at ih ⊢
      omega

/-- A group bump preserves the invariant: it adds `dt` to both the
group's `time` and the group's per-task sum. -/
theorem bumpGroup_inv (key gname taskId tname : String) (dt : Nat) :
    ∀ items, groupInv items → groupInv (bumpGroup items key gname taskId tname dt) := by
  intro items
  induction items with
  | nil =>
    intro _ kg hkg
    simp [bumpGroup] at hkg
    subst hkg
    simp [taskSum, bumpTask]
  | cons p rest ih =>
    obtain ⟨k, g⟩ := p
    intro hinv kg hkg
    have hhead : taskSum g.tasks = g.time := hinv (k, g) (List.mem_cons_self _ _)
    have htail : groupInv rest := fun x hx => hinv x (List.mem_cons_of_mem _ hx)
    by_cases hk : k = key
    · simp only [bumpGroup, if_pos hk, List.mem_cons] at hkg
      rcases hkg with rfl | hmem
      · show taskSum (bumpTask g.tasks taskId tname dt) = g.time + dt
        rw [bumpTask_sum, hhead]
      · exact htail kg hmem
    · simp only [bumpGroup, if_neg hk, List.mem_cons] at hkg
      rcases hkg with rfl | hmem
      · exact hhead
      · exact ih htail kg hmem

/-- A fold preserves any invariant its step preserves. -/
theorem foldl_preserve {α β : Type} (P : β → Prop) (f : β → α → β)
    (hf : ∀ b a, P b → P (f b a)) : ∀ (l : List α) (b : β), P b → P (l.foldl f b) := by
  intro l
  induction l with
  | nil => intro b hb; simpa using hb
  | cons a t ih =>
    intro b hb
    rw [List.foldl_cons]
    exact ih _ (hf b a hb)

/-- Processing one `(taskId, taskData)` pair preserves the invariant, in
every grouping mode and for every collaborator behaviour. -/
theorem processTask_inv (env : SummaryEnv) (groupBy : GroupBy) (taskId : String)
    (td : TaskData) :
    ∀ items, groupInv items → groupInv (processTask env groupBy items taskId td) := by
  intro items hinv
  cases groupBy with
  | day =>
    simp only [processTask]
    exact foldl_preserve groupInv _
      (fun its e hits =>
        bumpGroup_inv (env.dayKeyOf e.start) (env.dayNameOf e.start) taskId
          (env.getTask taskId).name (e.duration.getD 0) its hits)
      _ items hinv
  | task =>
    simp only [processTask]
    exact bumpGroup_inv _ _ _ _ _ items hinv
  | list =>
    simp only [processTask]
    exact bumpGroup_inv _ _ _ _ _ items hinv
  | space =>
    simp only [processTask]
    exact bumpGroup_inv _ _ _ _ _ items hinv

/-- The whole accumulation phase establishes the invariant. -/
theorem summaryAccumulate_inv (env : SummaryEnv) (groupBy : GroupBy) (report : TimeReport) :
    groupInv (summaryAccumulate env groupBy report).2 := by
  simp only [summaryAccumulate]
  have hstep : ∀ (acc : Nat × List (String × GroupAcc)) (u : UserRecord),
      groupInv acc.2 → groupInv (summaryUserStep env groupBy acc u).2 := by
    intro acc u hacc
    simp only [summaryUserStep]
    exact foldl_preserve groupInv _
      (fun its p hits => processTask_inv env groupBy p.1 p.2 its hits) _ _ hacc
  have hbase : groupInv (Prod.snd ((0, []) : Nat × List (String × GroupAcc))) :=
    fun kg hkg => absurd hkg (List.not_mem_nil _)
  exact foldl_preserve (fun acc => groupInv acc.2) (summaryUserStep env groupBy)
    hstep report.data (0, []) hbase

/-- Finalisation preserves the per-group equality: the percentage fields
are extra output, and the stable sort of the `tasks` array is a
permutation, so the sum is unchanged. -/
theorem finalizeGroup_tasks_sum (totalTime : Nat) (kg : String × GroupAcc)
    (hkg : taskSum kg.2.tasks = kg.2.time) :
    ((finalizeGroup totalTime kg).tasks.map TaskOut.time).sum
      = (finalizeGroup totalTime kg).time := by
  have hperm := List.mergeSort_perm (kg.2.tasks.map (fun kt =>
    ({ id := kt.1, name := kt.2.name, time := kt.2.time,
       timeFormatted := formatDurationHMS kt.2.time,
       percentage := roundPct kt.2.time kg.2.time } : TaskOut)))
    (fun a b => decide (b.time ≤ a.time))
  have hsum := (hperm.map TaskOut.time).sum_eq
  simp only [finalizeGroup]
  rw [hsum, List.map_map]
  exact hkg

/-- C7: for every raw time report, every grouping mode and every
collaborator behaviour, every produced GroupSummary satisfies
`sum of tasks[*].time = group.time` exactly — the rounded percentages are
display-only and inject no drift. -/
theorem c7_group_time_eq_task_sum (env : SummaryEnv) (groupBy : GroupBy)
    (report : TimeReport) :
    ∀ g ∈ summaryArray env groupBy report, (g.tasks.map TaskOut.time).sum = g.time := by
  intro g hg
  simp only [summaryArray] at hg
  have hg' := (List.mergeSort_perm _ _).mem_iff.mp hg
  obtain ⟨kg, hkg, rfl⟩ := List.mem_map.mp hg'
  exact finalizeGroup_tasks_sum _ kg (summaryAccumulate_inv env groupBy report kg hkg)

/-- The collaborator environment for the C7 witness. -/
def envC7 : SummaryEnv :=
  { getTask := fun i =>
      { name := "Task " ++ i, listId := "L", listName := "List",
        spaceId := "S", spaceName := "Space" },
    getTimeEntries := fun _ => [],
    dayKeyOf := fun _ => "day",
    dayNameOf := fun _ => "Day" }

/-- The report for the C7 witness. -/
def reportC7 : TimeReport :=
  { data := [{ time := 5000, tasks := [("t1", { id := "t1", name := "A", time := 3000 })] }] }

/-- The group the C7 witness inspects (the single group `summaryArray`
produces for `reportC7` grouped by task). -/
def groupC7 : GroupSummaryOut :=
  finalizeGroup 5000
    ("t1",
      { groupName := "A", time := 3000,
        tasks := [("t1", { id := "t1", name := "Task t1", time := 3000 })] })

/-- Witness for `c7_group_time_eq_task_sum` on a concrete report. -/
theorem c7_group_time_witness :
    (groupC7.tasks.map TaskOut.time).sum = groupC7.time :=
  c7_group_time_eq_task_sum envC7 GroupBy.task reportC7 groupC7 (by
    have hacc : summaryAccumulate envC7 GroupBy.task reportC7
        = (5000,
            [("t1",
              ({ groupName := "A", time := 3000,
                 tasks := [("t1", { id := "t1", name := "Task t1", time := 3000 })] } :
                GroupAcc))]) := by
      decide
    simp only [summaryArray, hacc, List.map_cons, List.map_nil, List.mergeSort_singleton]
    exact List.mem_singleton.mpr rfl)

/-! ## Claim C8: starting a timer while one is running -/

/-- The timer already running in the C8 scenario. -/
def currentTimerC8 : TimerInfo :=
  { id := "e1", taskId := "tc", taskName := "Current", startMs := 0,
    description := "", billable := false, tags := [] }

/-- The entry the upstream start call would create in the C8 scenario. -/
def newTimerC8 : TimerInfo :=
  { id := "e2", taskId := "tn", taskName := "New", startMs := 5,
    description := "", billable := false, tags := [] }

/-- The C8 scenario: a timer is already active, and the upstream
`startTimer` call succeeds if issued. -/
def envC8 : TimerEnv :=
  { currentTimerResult := Except.ok (some currentTimerC8),
    startResult := Except.ok newTimerC8 }

/-- C8 counterexample: `startTimerTool.handler` performs no
current-timer check — with a timer already active it simply starts the
new one and reports success, not the structured "not started" result. -/
theorem c8_tool_handler_ignores_running_timer :
    envC8.currentTimerResult = Except.ok (some currentTimerC8)
    ∧ (startTimerToolHandler envC8).isNotStarted = false
    ∧ startTimerToolHandler envC8 = StartTimerOutcome.started "tn" "New" :=
  ⟨rfl, rfl, rfl⟩

/-- C8 (amended): the sibling `handleStartTimer` checks `getCurrentTimer`
first and, whenever a timer is active, returns the structured non-fatal
"not started" result naming that timer instead of throwing; the
`startTimerTool.handler` of `src/tools/timetracking.ts` performs no such
check — its outcome is a function of the upstream start call alone,
independent of whether a timer is running. -/
theorem c8_sibling_reports_already_running (t : TimerInfo)
    (startRes : Except String TimerInfo)
    (cur cur' : Except String (Option TimerInfo)) :
    handleStartTimerSib { currentTimerResult := Except.ok (some t), startResult := startRes }
      = StartTimerOutcome.notStarted t.taskId t.taskName
    ∧ startTimerToolHandler { currentTimerResult := cur, startResult := startRes }
        = startTimerToolHandler { currentTimerResult := cur', startResult := startRes } := by
  exact ⟨rfl, rfl⟩

/-! ## Claim C9: collaborator failures during name resolution -/

/-- The hierarchy for the C9 scenario: one space with one list, so the
resolver must call the (failing) task-listing collaborator. -/
def hierC9 : Hierarchy :=
  { root := HNode.node "root" "Workspace" NodeType.space
      [HNode.node "S1" "Space One" NodeType.space
        [HNode.node "L1" "List One" NodeType.list []]] }

/-- A task-listing collaborator that always fails. -/
def failingTasksC9 (_ : String) : Except String (List TaskLite) :=
  Except.error "ECONNRESET: upstream service failed"

/-- C9 counterexample: when the task-listing fetch (or the hierarchy
fetch itself) fails, `findTaskIDByName` swallows the failure into
`undefined` and the caller reports `Task with name … not found` — the
upstream failure is converted into the NotFound outcome, with the
original message lost, so the caller cannot distinguish the two cases. -/
theorem c9_upstream_failure_becomes_not_found :
    resolveTaskIdForTimer (Except.ok hierC9) failingTasksC9 none (some "Fix Bug")
      = Except.error (notFoundMsg "Fix Bug")
    ∧ resolveTaskIdForTimer (Except.error "ECONNRESET: upstream service failed")
        failingTasksC9 none (some "Fix Bug")
      = Except.error (notFoundMsg "Fix Bug") :=
  ⟨rfl, rfl⟩

/-- C9 (amended): `findTaskIDByName`'s `catch` converts *every*
collaborator failure — hierarchy fetch or task listing — into
`undefined`, and the start-timer caller then throws the NotFound message;
no `UpstreamError` carrying the original message is propagated out of
name resolution. -/
theorem c9_resolution_swallows_failures (e n : String)
    (getTasks : String → Except String (List TaskLite)) (h : Hierarchy) :
    findTaskIDByNameE (Except.error e) getTasks n = none
    ∧ resolveTaskIdForTimer (Except.error e) getTasks none (some n)
        = Except.error (notFoundMsg n)
    ∧ (findInSpacesE getTasks n h.root.children = Except.error e →
        findTaskIDByNameE (Except.ok h) getTasks n = none) := by
  refine ⟨rfl, rfl, ?_⟩
  intro hfail
  simp [findTaskIDByNameE, hfail]

/-- Witness for `c9_resolution_swallows_failures` at the concrete failing
collaborators of the C9 scenario. -/
theorem c9_resolution_swallows_failures_witness :
    findTaskIDByNameE (Except.ok hierC9) failingTasksC9 "Fix Bug" = none :=
  (c9_resolution_swallows_failures "ECONNRESET: upstream service failed" "Fix Bug"
    failingTasksC9 hierC9).2.2 rfl

/-! ## Claim C10: the current-timer operation and "no timer running" -/

/-- C10 counterexample: the `TimeTrackingService.getCurrentTimer` of the
service generation actually wired to `handleGetCurrentTimer` has no 404
special case — an upstream 404 is wrapped and rethrown, and the handler
then reports an error result, not the structured "no timer running"
status. -/
theorem c10_service2_throws_on_404 :
    getCurrentTimerSvc2 (UpstreamResult.httpError (some 404) "Not Found")
      = Except.error ("Failed to get current timer: " ++ "Not Found")
    ∧ handleGetCurrentTimer
        (getCurrentTimerSvc2 (UpstreamResult.httpError (some 404) "Not Found"))
      = CurrentTimerOutcome.errorText
          ("Error getting current timer: " ++ ("Failed to get current timer: " ++ "Not Found")) :=
  ⟨rfl, rfl⟩

/-- C10 (amended): "no timer running" is a success value — an empty data
payload yields `null` from both service generations, the
`src/services/clickup` generation additionally maps an upstream 404 to
`null`, and `handleGetCurrentTimer` renders `null` as the structured
`running: false` result rather than an error; but the other service
generation propagates a 404 as a wrapped error, which the handler then
reports as an error result. -/
theorem c10_no_timer_is_success (m : String) (s : Option Nat) :
    getCurrentTimerSvc (UpstreamResult.httpError (some 404) m) = Except.ok none
    ∧ getCurrentTimerSvc (UpstreamResult.payload none) = Except.ok none
    ∧ getCurrentTimerSvc2 (UpstreamResult.payload none) = Except.ok none
    ∧ handleGetCurrentTimer (Except.ok none) = CurrentTimerOutcome.noTimer
    ∧ handleGetCurrentTimer (getCurrentTimerSvc (UpstreamResult.httpError (some 404) m))
        = CurrentTimerOutcome.noTimer
    ∧ getCurrentTimerSvc2 (UpstreamResult.httpError s m)
        = Except.error ("Failed to get current timer: " ++ m) := by
  exact ⟨rfl, rfl, rfl, rfl, rfl, rfl⟩
